import Mathlib

/-!
Verification of the backtest-suite core: a shallow embedding of the
technical-analysis module (RSI, Chaikin Volatility, signal generation) and of
the hill-climbing optimization hook, with theorems settling the frozen claims
about the natural-language specification.

Numeric model: JavaScript numbers are embedded as rationals; candle timestamps
as integers.  The JavaScript value `-Infinity` (the optimizer sentinel profit)
is embedded as the bottom element of `WithBot Rat`.  A thrown JavaScript
exception is embedded as `Option.none`.
-/

/-- Embedded OHLCV candle (the `volume` field is never read by the core and is
omitted; `open` is renamed `open_` because `open` is a Lean keyword). -/
structure Candle where
  time : ℤ
  open_ : ℚ
  high : ℚ
  low : ℚ
  close : ℚ

/-- The four strategy thresholds, as in the source interface. -/
structure SignalParameters where
  buyRsiThreshold : ℚ
  buyCvThreshold : ℚ
  sellRsiThreshold : ℚ
  sellCvThreshold : ℚ

/-- A completed round-trip trade, as in the source interface. -/
structure Trade where
  buyTime : ℤ
  sellTime : ℤ
  buyPrice : ℚ
  sellPrice : ℚ
  percentageChange : ℚ

/-- Portfolio analytics, as in the source interface. -/
structure TradeAnalytics where
  initialInvestment : ℚ
  currentPortfolioValue : ℚ
  totalPercentageChange : ℚ
  trades : List Trade

/-- The marker pushed onto the `signals` / `allSignals` arrays.  The source
stores color, shape, position and a text string; those are presentational
constants, so each pushed entry is identified here by which push-site produced
it (the percentage square keeps the raw percentage that the source formats
into its text). -/
inductive SignalKind where
  | buyArrow
  | sellArrow
  | pctSquare (pct : ℚ)
  | allBuy
  | allSell

/-- One entry of the returned `signals` array: its candle timestamp and which
push-site produced it. -/
structure Signal where
  time : ℤ
  kind : SignalKind

/-- The body of the subsequent-bars loop of `calculateRSI`: Wilder smoothing
of average gain and loss, then push `100 - 100/(1+rs)`.  When `avgLoss === 0`
the source sets `rs = Infinity`, and `100 - 100/(1 + Infinity)` evaluates to
`100`; that case is embedded directly as the value `100`.  The fold state is
(avgGain, avgLoss, output so far). -/
def rsiStep (period : ℕ) (st : ℚ × ℚ × List ℚ) (d : ℚ) : ℚ × ℚ × List ℚ :=
  let gain := if d > 0 then d else 0
  let loss := if d < 0 then |d| else 0
  let g := (st.1 * ((period : ℚ) - 1) + gain) / (period : ℚ)
  let l := (st.2.1 * ((period : ℚ) - 1) + loss) / (period : ℚ)
  let rsiVal := if l = 0 then (100 : ℚ) else 100 - 100 / (1 + g / l)
  (g, l, st.2.2 ++ [rsiVal])

/-- Embedding of `calculateRSI(closes, period = 14)`.

The source seeds average gain/loss over the first `period` consecutive
differences (a difference of zero adds zero to the loss sum, matching the
`else` branch), then for each later bar runs `rsiStep`.  Out-of-range reads of
the seeding loop occur only when the subsequent loop never runs (output
empty), so they are not modeled. -/
def calculateRSI (closes : List ℚ) (period : ℕ) : List ℚ :=
  let diffs := List.zipWith (fun prev next => next - prev) closes closes.tail
  let initGain := ((diffs.take period).map (fun d => if d > 0 then d else 0)).sum
  let initLoss := ((diffs.take period).map (fun d => if d > 0 then 0 else |d|)).sum
  ((diffs.drop period).foldl (rsiStep period)
    (initGain / (period : ℚ), initLoss / (period : ℚ), ([] : List ℚ))).2.2

/-- The body of the EMA loop of `calculateChaikinVolatility`: push the
exponentially smoothed high-low range, reading the previous value
`emaHL[emaHL.length - 1]` via `getD`. -/
def emaStep (multiplier : ℚ) (acc : List ℚ) (d : ℚ) : List ℚ :=
  acc ++ [(d - acc.getD (acc.length - 1) 0) * multiplier + acc.getD (acc.length - 1) 0]

/-- Embedding of `calculateChaikinVolatility(highs, lows, length = 10)`.

The source seeds the EMA with
`hlDiff.slice(0, length).reduce((a, b) => a + b) / length`.
`Array.prototype.reduce` with no initial value throws a `TypeError` on an
empty array, so the embedding returns `none` exactly when
`hlDiff.slice(0, length)` is empty, i.e. when the inputs are empty.  The EMA
loop body (`emaStep`, reading `emaHL[emaHL.length - 1]` via `getD`) appends
one smoothed value per bar; the CV loop maps index `i` in
`[length, emaHL.length)` to `(emaHL[i] - emaHL[i-length]) / emaHL[i-length] * 100`. -/
def calculateChaikinVolatility (highs lows : List ℚ) (length : ℕ) : Option (List ℚ) :=
  let hlDiff := List.zipWith (fun h l => h - l) highs lows
  if (hlDiff.take length).isEmpty then
    none
  else
    let multiplier : ℚ := 2 / ((length : ℚ) + 1)
    let initialEMA := (hlDiff.take length).sum / (length : ℚ)
    let emaHL := (hlDiff.drop length).foldl (emaStep multiplier) [initialEMA]
    some ((List.range' length (emaHL.length - length)).map (fun i =>
      ((emaHL.getD i 0 - emaHL.getD (i - length) 0) / emaHL.getD (i - length) 0) * 100))

/-- Embedding of `calculatePercentageChange(buyPrice, sellPrice)`. -/
def calculatePercentageChange (buyPrice sellPrice : ℚ) : ℚ :=
  ((sellPrice - buyPrice) / buyPrice) * 100

/-- Mutable locals of the signal-generation scan loop. -/
structure ScanState where
  activeBuySignal : Option (ℤ × ℚ)
  signals : List Signal
  allSignals : List Signal
  completedTrades : List Trade

/-- Placeholder candle used as the `getD` default; the scan guard
`i + 14 < ohlcvData.length` keeps every actual access in range. -/
def defaultCandle : Candle := ⟨0, 0, 0, 0, 0⟩

/-- The buy / sell state transition of one scan iteration.  The source is an
if / else-if chain on the nullable `activeBuySignal`: the buy branch
`!activeBuySignal && cv < buyCv && rsi < buyRsi` opens a position at the
current candle and pushes a BUY marker; the sell branch
`activeBuySignal && cv > sellCv && rsi > sellRsi` closes it, records the
trade and pushes the SELL marker and the percentage square.  The chain is
embedded as a match on the option followed by the respective condition, which
is branch-for-branch the same decision tree. -/
def scanTransition (parameters : SignalParameters) (st : ScanState) (candle : Candle)
    (cv rsi : ℚ) : ScanState :=
  match st.activeBuySignal with
  | none =>
    if cv < parameters.buyCvThreshold ∧ rsi < parameters.buyRsiThreshold then
      { st with
        activeBuySignal := some (candle.time, candle.close),
        signals := st.signals ++ [⟨candle.time, SignalKind.buyArrow⟩] }
    else st
  | some (bt, bp) =>
    if cv > parameters.sellCvThreshold ∧ rsi > parameters.sellRsiThreshold then
      let sellPrice := candle.close
      let percentChange := calculatePercentageChange bp sellPrice
      { st with
        activeBuySignal := none,
        completedTrades := st.completedTrades ++
          [⟨bt, candle.time, bp, sellPrice, percentChange⟩],
        signals := st.signals ++
          [⟨candle.time, SignalKind.sellArrow⟩,
           ⟨candle.time, SignalKind.pctSquare percentChange⟩] }
    else st

/-- The `showAllSignals` debug block of one scan iteration: push a marker for
every index where the buy or sell predicate holds, independent of position
state. -/
def scanDebugMarkers (showAllSignals : Bool) (parameters : SignalParameters)
    (st1 : ScanState) (candle : Candle) (cv rsi : ℚ) : ScanState :=
  if showAllSignals then
    let stA :=
      if cv < parameters.buyCvThreshold ∧ rsi < parameters.buyRsiThreshold then
        { st1 with allSignals := st1.allSignals ++ [⟨candle.time, SignalKind.allBuy⟩] }
      else st1
    if cv > parameters.sellCvThreshold ∧ rsi > parameters.sellRsiThreshold then
      { stA with allSignals := stA.allSignals ++ [⟨candle.time, SignalKind.allSell⟩] }
    else stA
  else st1

/-- One iteration of the scan loop of `generateTradingSignals` at index `i`.

The source guard is `cvIndex >= 0 && (i + offset) < ohlcvData.length` with
`offset = 14`; inside the guard the iteration reads `cvValues[cvIndex]`,
`rsiValues[i]` and `ohlcvData[i + offset]`, runs the buy / sell transition
(`scanTransition`) and then the debug block (`scanDebugMarkers`). -/
def scanStep (ohlcvData : List Candle) (parameters : SignalParameters) (showAllSignals : Bool)
    (rsiValues cvValues : List ℚ) (st : ScanState) (i : ℕ) : ScanState :=
  let cvIndex : ℤ := (cvValues.length : ℤ) - (rsiValues.length : ℤ) + (i : ℤ)
  if 0 ≤ cvIndex ∧ i + 14 < ohlcvData.length then
    let cv := cvValues.getD cvIndex.toNat 0
    let rsi := rsiValues.getD i 0
    let candle := ohlcvData.getD (i + 14) defaultCandle
    scanDebugMarkers showAllSignals parameters
      (scanTransition parameters st candle cv rsi) candle cv rsi
  else st

/-- Result record of `generateTradingSignals`. -/
structure SignalsResult where
  signals : List Signal
  tradeAnalytics : TradeAnalytics
  profit : ℚ
  numTrades : ℕ

/-- Embedding of `generateTradingSignals(ohlcvData, parameters, showAllSignals)`.

The scan loop runs `for (i = 1; i < rsiValues.length; i++)`, embedded as a fold
over `List.range' 1 (rsiValues.length - 1)`.  The portfolio fold multiplies a
starting balance of 1000 by `1 + pct/100` per completed trade, and the
reported profit is `(value - 1000) / 1000 * 100`.  With `showAllSignals` the
source returns `signals.concat(allSignals).sort((a, b) => a.time - b.time)`
(a stable sort by time), embedded with a stable merge sort.  The whole result
is `none` when `calculateChaikinVolatility` throws, which happens exactly for
an empty candle array. -/
def generateTradingSignals (ohlcvData : List Candle) (parameters : SignalParameters)
    (showAllSignals : Bool := false) : Option SignalsResult :=
  let closePrices := ohlcvData.map (fun d => d.close)
  let highPrices := ohlcvData.map (fun d => d.high)
  let lowPrices := ohlcvData.map (fun d => d.low)
  let rsiValues := calculateRSI closePrices 14
  match calculateChaikinVolatility highPrices lowPrices 10 with
  | none => none
  | some cvValues =>
    let final := (List.range' 1 (rsiValues.length - 1)).foldl
      (scanStep ohlcvData parameters showAllSignals rsiValues cvValues)
      ⟨none, [], [], []⟩
    let initialInvestment : ℚ := 1000
    let currentPortfolioValue :=
      final.completedTrades.foldl (fun v t => v * (1 + t.percentageChange / 100))
        initialInvestment
    let totalPercentageChange :=
      ((currentPortfolioValue - initialInvestment) / initialInvestment) * 100
    let finalSignals :=
      if showAllSignals then
        (final.signals ++ final.allSignals).mergeSort (fun a b => a.time ≤ b.time)
      else final.signals
    some
      { signals := finalSignals
        tradeAnalytics :=
          ⟨initialInvestment, currentPortfolioValue, totalPercentageChange,
           final.completedTrades⟩
        profit := totalPercentageChange
        numTrades := final.completedTrades.length }

/-! ## The optimization hook

The hook keeps a random-restart hill climber.  Its ambient randomness
(`Math.random()`) is embedded by passing the drawn values in explicitly: the
random start of a climb is an input parameter set, and each of the up-to-300
neighbor draws is a pair of a chosen dimension (in the source order
buyRsi, buyCv, sellRsi, sellCv) and a sign for the ±5 step.  `Date.now()`
readings are embedded as an integer timestamp attached to each outer-loop
iteration.  React state updates (`setTestParams`, `setBestParams`,
`setHighestProfit`) and the `onParametersUpdate` callback are embedded as
explicit state passing and an explicit list of emissions. -/

/-- Closed interval of one optimization dimension. -/
structure ParamRange where
  min : ℚ
  max : ℚ

/-- The four per-dimension bounds, as in the source interface. -/
structure OptimizationBounds where
  buyRsi : ParamRange
  buyCv : ParamRange
  sellRsi : ParamRange
  sellCv : ParamRange

/-- The bounds object of the hook. -/
def bounds : OptimizationBounds :=
  { buyRsi := ⟨0, 100⟩, buyCv := ⟨-50, 0⟩, sellRsi := ⟨0, 100⟩, sellCv := ⟨0, 400⟩ }

/-- Embedding of the `clamp` callback: `Math.max(min, Math.min(val, max))`. -/
def clamp (val mn mx : ℚ) : ℚ := Max.max mn (Min.min val mx)

/-- A candidate with its evaluation, as in the source interface
`OptimizationResult extends SignalParameters`.  The sentinel profit
`-Infinity` is the bottom element. -/
structure OptimizationResult extends SignalParameters where
  maxProfit : WithBot ℚ
  numTrades : ℕ

/-- Embedding of the `randomNeighbor` callback: exactly one dimension
(`chosenKey`, in the source array order) moves by `stepSize = 5` with the
drawn sign (`Math.random() < 0.5` picks the negative step), clamped to that
the bounds of that dimension. -/
def randomNeighbor (params : SignalParameters) (chosenKey : Fin 4) (stepDown : Bool) :
    SignalParameters :=
  let delta : ℚ := if stepDown then -5 else 5
  match chosenKey with
  | ⟨0, _⟩ =>
    let v := clamp (params.buyRsiThreshold + delta) bounds.buyRsi.min bounds.buyRsi.max
    { params with buyRsiThreshold := v }
  | ⟨1, _⟩ =>
    let v := clamp (params.buyCvThreshold + delta) bounds.buyCv.min bounds.buyCv.max
    { params with buyCvThreshold := v }
  | ⟨2, _⟩ =>
    let v := clamp (params.sellRsiThreshold + delta) bounds.sellRsi.min bounds.sellRsi.max
    { params with sellRsiThreshold := v }
  | ⟨3, _⟩ =>
    let v := clamp (params.sellCvThreshold + delta) bounds.sellCv.min bounds.sellCv.max
    { params with sellCvThreshold := v }
  | ⟨n + 4, h⟩ => absurd h (by omega)

/-- One neighbor step of the inner hill-climb loop: evaluate the perturbed
candidate; adopt it only when its profit strictly exceeds the incumbent AND it
has at least 3 trades (`result.profit > current.maxProfit &&
result.numTrades >= 3`).  Evaluation failure (a thrown exception) propagates. -/
def climbStep (data : List Candle) (cur : OptimizationResult) (choice : Fin 4 × Bool) :
    Option OptimizationResult :=
  let candidate := randomNeighbor cur.toSignalParameters choice.1 choice.2
  match generateTradingSignals data candidate with
  | none => none
  | some result =>
    some
      (if cur.maxProfit < (result.profit : WithBot ℚ) ∧ 3 ≤ result.numTrades then
        { toSignalParameters := candidate
          maxProfit := (result.profit : WithBot ℚ)
          numTrades := result.numTrades }
      else cur)

/-- Embedding of the `runOneHillClimb` callback.  With null data it returns
`{...testParams, maxProfit: -Infinity, numTrades: 0}` without evaluating.
Otherwise the random start (`initParams`) is evaluated and its profit and
trade count are assigned to the current candidate unconditionally, and the
loop (`maxIterations = 300` in the source; the `choices` list carries the 300
random draws) runs `climbStep`.  The `setTestParams` UI update inside the
accept branch has no effect on the returned value and is not modeled. -/
def runOneHillClimb (ohlcvData : Option (List Candle)) (testParams : SignalParameters)
    (initParams : SignalParameters) (choices : List (Fin 4 × Bool)) :
    Option OptimizationResult :=
  match ohlcvData with
  | none => some { toSignalParameters := testParams, maxProfit := ⊥, numTrades := 0 }
  | some data =>
    match generateTradingSignals data initParams with
    | none => none
    | some initialResult =>
      choices.foldlM (climbStep data)
        { toSignalParameters := initParams
          maxProfit := (initialResult.profit : WithBot ℚ)
          numTrades := initialResult.numTrades }

/-- The persistent React state of the hook: `testParams`, `bestParams` and
`highestProfit` (a profit plus the parameters that achieved it). -/
structure HookState where
  testParams : SignalParameters
  bestParams : OptimizationResult
  highestProfit : WithBot ℚ × SignalParameters

/-- The default thresholds (`DEFAULT_PARAMETERS`). -/
def defaultParameters : SignalParameters :=
  { buyRsiThreshold := 40, buyCvThreshold := -199/10
    sellRsiThreshold := 72, sellCvThreshold := 65 }

/-- The initial `useState` values of the hook: default thresholds, sentinel
best (`maxProfit: -Infinity`), sentinel highest profit. -/
def initialHookState : HookState :=
  { testParams := defaultParameters
    bestParams := { toSignalParameters := defaultParameters, maxProfit := ⊥, numTrades := 0 }
    highestProfit := (⊥, defaultParameters) }

/-- Embedding of the `resetParameters` callback. -/
def resetParameters (_st : HookState) : HookState :=
  { testParams := defaultParameters
    bestParams := { toSignalParameters := defaultParameters, maxProfit := ⊥, numTrades := 0 }
    highestProfit := (⊥, defaultParameters) }

/-- One iteration of the outer `while` loop of `runHillClimbForFiveSeconds`,
carrying the drawn climb randomness and the `Date.now()` value observed at the
throttle check of this iteration. -/
structure ClimbIteration where
  initParams : SignalParameters
  choices : List (Fin 4 × Bool)
  now : ℤ

/-- Everything a run makes observable: the throttled progress emissions (time
and emitted best), the unconditional final emission, and the hook state after
the run. -/
structure RunOutput where
  emissions : List (ℤ × OptimizationResult)
  finalEmission : OptimizationResult
  state : HookState

/-- One outer-loop iteration on the accumulator
(localBest, lastUpdateTime, emissions so far): run one climb; if the attempt
strictly improves `localBest`, adopt it, and emit it only when
`now - lastUpdateTime >= 200` (`UPDATE_THROTTLE`), in which case
`lastUpdateTime` becomes `now`. -/
def runIteration (ohlcvData : Option (List Candle)) (testParams : SignalParameters)
    (acc : OptimizationResult × ℤ × List (ℤ × OptimizationResult)) (it : ClimbIteration) :
    Option (OptimizationResult × ℤ × List (ℤ × OptimizationResult)) :=
  match runOneHillClimb ohlcvData testParams it.initParams it.choices with
  | none => none
  | some attempt =>
    some
      (if acc.1.maxProfit < attempt.maxProfit then
        if 200 ≤ it.now - acc.2.1 then
          (attempt, it.now, acc.2.2 ++ [(it.now, attempt)])
        else (attempt, acc.2.1, acc.2.2)
      else acc)

/-- Embedding of `runHillClimbForFiveSeconds`.  The run starts from
`localBest = {...bestParams}` (the persistent hook state) and
`lastUpdateTime = 0`; the `iterations` list carries however many outer-loop
iterations the 5-second wall-clock budget allows.  After the loop the final
`setBestParams` / `onParametersUpdate` pair emits `localBest` unconditionally,
and `highestProfit` is raised when strictly beaten.  A climb that throws
aborts the run (the `finally` block only clears the `isOptimizing` flag, which
is not modeled). -/
def runHillClimbForFiveSeconds (ohlcvData : Option (List Candle)) (st : HookState)
    (iterations : List ClimbIteration) : Option RunOutput :=
  match iterations.foldlM (runIteration ohlcvData st.testParams)
      (st.bestParams, (0 : ℤ), ([] : List (ℤ × OptimizationResult))) with
  | none => none
  | some (localBest, _, emissions) =>
    some
      { emissions := emissions
        finalEmission := localBest
        state :=
          { st with
            bestParams := localBest
            highestProfit :=
              if st.highestProfit.1 < localBest.maxProfit then
                (localBest.maxProfit, localBest.toSignalParameters)
              else st.highestProfit } }

/-! ## Reference data and auxiliary definitions used by the theorems -/

/-- Candle with the given time and close, high one above and low one below the
close (so the high-low range is the nonzero constant 2 and every EMA baseline
is nonzero). -/
def mkCandle (t : ℤ) (c : ℚ) : Candle := ⟨t, c, c + 1, c - 1, c⟩

/-- Sixteen flat-price candles: enough for one RSI output value, so the scan
loop body never runs and every evaluation yields zero trades and zero
profit. -/
def flatCandles16 : List Candle :=
  [mkCandle 0 10, mkCandle 1 10, mkCandle 2 10, mkCandle 3 10,
   mkCandle 4 10, mkCandle 5 10, mkCandle 6 10, mkCandle 7 10,
   mkCandle 8 10, mkCandle 9 10, mkCandle 10 10, mkCandle 11 10,
   mkCandle 12 10, mkCandle 13 10, mkCandle 14 10, mkCandle 15 10]

/-- The Scenario A series of the specification: twenty flat-price bars except
a dip at bar 15 (close 5; the RSI value computed at that bar is 0 < 40) and a
rise at bar 18 (close 40; the RSI value computed at that bar exceeds 72). -/
def scenarioACandles : List Candle :=
  [mkCandle 0 10, mkCandle 1 10, mkCandle 2 10, mkCandle 3 10,
   mkCandle 4 10, mkCandle 5 10, mkCandle 6 10, mkCandle 7 10,
   mkCandle 8 10, mkCandle 9 10, mkCandle 10 10, mkCandle 11 10,
   mkCandle 12 10, mkCandle 13 10, mkCandle 14 10, mkCandle 15 5,
   mkCandle 16 10, mkCandle 17 10, mkCandle 18 40, mkCandle 19 10]

/-- Sixteen flat closes. -/
def closesFlatFlat : List ℚ :=
  [10, 10, 10, 10, 10, 10, 10, 10, 10, 10, 10, 10, 10, 10, 10, 10]

/-- Fifteen flat closes followed by one falling close: agrees with
`closesFlatFlat` on the first fifteen entries (candle indices 0 through 14)
and differs only at candle index 15. -/
def closesFlatDrop : List ℚ :=
  [10, 10, 10, 10, 10, 10, 10, 10, 10, 10, 10, 10, 10, 10, 10, 9]

/-- Fallback result used to read a successful evaluation out of an `Option`
in closed statements. -/
def dummySignalsResult : SignalsResult :=
  { signals := [], tradeAnalytics := ⟨1000, 1000, 0, []⟩, profit := 0, numTrades := 0 }

/-- Fallback run output used to read a successful run out of an `Option` in
closed statements. -/
def dummyRunOutput : RunOutput :=
  { emissions := [], finalEmission := initialHookState.bestParams, state := initialHookState }

/-- The RSI value at candle index `j` in the sense of the specification:
seed the averages over the first `period` differences, run the Wilder update
for every bar after the seed window up to and including bar `j`, and take the
value pushed at bar `j` (defined for `period + 1 ≤ j < closes.length`).  This
is the spec-side reference used to settle at which candle index the value at
output index `i` of `calculateRSI` is computed. -/
def rsiAtBar (closes : List ℚ) (period : ℕ) (j : ℕ) : ℚ :=
  let diffs := List.zipWith (fun prev next => next - prev) closes closes.tail
  let initGain := ((diffs.take period).map (fun d => if d > 0 then d else 0)).sum
  let initLoss := ((diffs.take period).map (fun d => if d > 0 then 0 else |d|)).sum
  ((((diffs.drop period).take (j - period)).foldl (rsiStep period)
    (initGain / (period : ℚ), initLoss / (period : ℚ), ([] : List ℚ))).2.2).getD
    (j - period - 1) 0

/-- A completed trade was opened at some candle index `jb + 14` and closed at
a later candle index `js + 14` read before scan position `i`, with the times
and closes taken from those candles and the recorded percentage computed from
its own prices. -/
def TradeOk (candles : List Candle) (i : ℕ) (t : Trade) : Prop :=
  ∃ jb js : ℕ,
    1 ≤ jb ∧ jb < js ∧ js < i ∧ js + 14 < candles.length ∧
    t.buyTime = (candles.getD (jb + 14) defaultCandle).time ∧
    t.buyPrice = (candles.getD (jb + 14) defaultCandle).close ∧
    t.sellTime = (candles.getD (js + 14) defaultCandle).time ∧
    t.sellPrice = (candles.getD (js + 14) defaultCandle).close ∧
    t.percentageChange = calculatePercentageChange t.buyPrice t.sellPrice

/-- An open position was opened at candle index `j + 14` read before scan
position `i`, with its time and price taken from that candle, and it postdates
every completed sell. -/
def ActiveOk (candles : List Candle) (trades : List Trade) (i : ℕ) (p : ℤ × ℚ) : Prop :=
  ∃ j : ℕ, 1 ≤ j ∧ j < i ∧ j + 14 < candles.length ∧
    p.1 = (candles.getD (j + 14) defaultCandle).time ∧
    p.2 = (candles.getD (j + 14) defaultCandle).close ∧
    (∀ t ∈ trades, t.sellTime < p.1)

/-- A pushed signal carries the timestamp of the candle at index `j + 14` for
some iteration `1 ≤ j < i` that passed the scan guard (its CV-aligned index is
non-negative and the candle index is in range). -/
def SigOk (candles : List Candle) (rsiValues cvValues : List ℚ) (i : ℕ) (s : Signal) : Prop :=
  ∃ j : ℕ, 1 ≤ j ∧ j < i ∧ j < rsiValues.length ∧
    0 ≤ (cvValues.length : ℤ) - (rsiValues.length : ℤ) + (j : ℤ) ∧
    j + 14 < candles.length ∧
    s.time = (candles.getD (j + 14) defaultCandle).time

/-- Invariant carried through the scan loop of `generateTradingSignals`,
parameterized by the next loop index `i`: every completed trade satisfies
`TradeOk`; trades do not overlap (each sell strictly precedes the next buy)
and each closes after it opens; an open position satisfies `ActiveOk`; and
every pushed signal (regular or debug) satisfies `SigOk`. -/
def ScanInv (candles : List Candle) (rsiValues cvValues : List ℚ) (st : ScanState)
    (i : ℕ) : Prop :=
  (∀ t ∈ st.completedTrades, TradeOk candles i t)
  ∧ List.Chain' (fun a b => a.sellTime < b.buyTime) st.completedTrades
  ∧ (∀ t ∈ st.completedTrades, t.buyTime < t.sellTime)
  ∧ (∀ p ∈ st.activeBuySignal, ActiveOk candles st.completedTrades i p)
  ∧ (∀ s ∈ st.signals ++ st.allSignals, SigOk candles rsiValues cvValues i s)

/-- Positional part of `ActiveOk` (no relation to completed sells): the open
position was opened at candle index `j + 14` read before scan position `i`. -/
def ActivePos (candles : List Candle) (i : ℕ) (p : ℤ × ℚ) : Prop :=
  ∃ j : ℕ, 1 ≤ j ∧ j < i ∧ j + 14 < candles.length ∧
    p.1 = (candles.getD (j + 14) defaultCandle).time ∧
    p.2 = (candles.getD (j + 14) defaultCandle).close

/-- Positional scan invariant: like `ScanInv` but without the clauses that
need ascending timestamps, so it holds for arbitrary candle series. -/
def PosInv (candles : List Candle) (rsiValues cvValues : List ℚ) (st : ScanState)
    (i : ℕ) : Prop :=
  (∀ t ∈ st.completedTrades, TradeOk candles i t)
  ∧ (∀ p ∈ st.activeBuySignal, ActivePos candles i p)
  ∧ (∀ s ∈ st.signals ++ st.allSignals, SigOk candles rsiValues cvValues i s)

/-- Invariant carried through the outer loop of `runHillClimbForFiveSeconds`,
relative to the best candidate `b0` the run started from: the throttled
emissions are at least 200 apart in time, the last emission time equals the
stored `lastUpdateTime`, and if nothing was emitted then `lastUpdateTime` is
still 0 and the local best is still `b0`. -/
def EmitInv (b0 : OptimizationResult)
    (acc : OptimizationResult × ℤ × List (ℤ × OptimizationResult)) : Prop :=
  List.Chain' (fun a b => a.1 + 200 ≤ b.1) acc.2.2
  ∧ (∀ e, acc.2.2.getLast? = some e → e.1 = acc.2.1)
  ∧ (acc.2.2 = [] → acc.2.1 = 0 ∧ acc.1 = b0)

/-- Thresholds with a positive buy-CV bound, so that a flat-range series (CV
constantly 0) can trigger a buy signal. -/
def paramsD : SignalParameters :=
  { buyRsiThreshold := 50, buyCvThreshold := 10, sellRsiThreshold := 80, sellCvThreshold := 70 }

/-- Thresholds so permissive that every evaluable index fires (buy-RSI above
100 and sell-RSI below 0): on a flat series the scan alternates buy and sell
at consecutive evaluable indices, producing completed trades. -/
def tradeParams : SignalParameters :=
  { buyRsiThreshold := 101, buyCvThreshold := 10, sellRsiThreshold := -1, sellCvThreshold := -10 }

/-- Forty flat-price candles with times 0 through 39: long enough that trades
complete under `tradeParams`. -/
def tradeCandles40 : List Candle :=
  (List.range 40).map (fun n => mkCandle (n : ℤ) 10)

/-- A parameter set with buy-RSI threshold 10, used as the random start of a
reference climb. -/
def paramsA : SignalParameters :=
  { buyRsiThreshold := 10, buyCvThreshold := -10, sellRsiThreshold := 80, sellCvThreshold := 70 }

/-- A parameter set with buy-RSI threshold 20, used as the random start of a
reference climb. -/
def paramsB : SignalParameters :=
  { buyRsiThreshold := 20, buyCvThreshold := -10, sellRsiThreshold := 80, sellCvThreshold := 70 }

/-- A parameter set with buy-RSI threshold 30, used as the random start of a
reference climb. -/
def paramsC : SignalParameters :=
  { buyRsiThreshold := 30, buyCvThreshold := -10, sellRsiThreshold := 80, sellCvThreshold := 70 }

/-! ## Lengths of the indicator series -/

theorem length_rsiStep_foldl (period : ℕ) (l : List ℚ) :
    ∀ st : ℚ × ℚ × List ℚ, ((l.foldl (rsiStep period) st).2.2).length = st.2.2.length + l.length := by
  induction l with
  | nil => intro st; simp
  | cons d tl ih =>
    intro st
    simp only [List.foldl_cons, ih, rsiStep, List.length_append, List.length_cons,
      List.length_nil]
    omega

theorem calculateRSI_length (closes : List ℚ) (period : ℕ) :
    (calculateRSI closes period).length = closes.length - 1 - period := by
  simp only [calculateRSI, length_rsiStep_foldl, List.length_nil, Nat.zero_add,
    List.length_drop, List.length_zipWith, List.length_tail]
  omega

theorem length_emaStep_foldl (m : ℚ) (l : List ℚ) :
    ∀ acc : List ℚ, (l.foldl (emaStep m) acc).length = acc.length + l.length := by
  induction l with
  | nil => intro acc; simp
  | cons d tl ih =>
    intro acc
    simp only [List.foldl_cons, ih, emaStep, List.length_append, List.length_cons,
      List.length_nil]
    omega

theorem calculateChaikinVolatility_length (highs lows : List ℚ) (len : ℕ) (cv : List ℚ)
    (h : calculateChaikinVolatility highs lows len = some cv) :
    cv.length = 1 + (min highs.length lows.length - len) - len := by
  simp only [calculateChaikinVolatility] at h
  split at h
  · exact absurd h (by simp)
  · rw [Option.some.injEq] at h
    subst h
    simp only [List.length_map, List.length_range', length_emaStep_foldl,
      List.length_cons, List.length_nil, List.length_drop, List.length_zipWith]

/-! ## Claim C6: output length of calculateRSI -/

/-- C6: for every closes array and period, `calculateRSI` returns an array of
length `closes.length - period - 1` when `closes.length >= period + 1`, and
returns the empty array when `closes.length < period + 1`. -/
theorem claim_C6 (closes : List ℚ) (period : ℕ) :
    (period + 1 ≤ closes.length →
      (calculateRSI closes period).length = closes.length - period - 1)
    ∧ (closes.length < period + 1 → calculateRSI closes period = []) := by
  refine ⟨fun h => ?_, fun h => ?_⟩
  · rw [calculateRSI_length]; omega
  · have hl := calculateRSI_length closes period
    exact List.length_eq_zero.mp (by omega)

/-- Witness for C6 at a series of 17 closes and at a series of 2 closes. -/
theorem claim_C6_witness :
    (calculateRSI closesFlatFlat 14).length = closesFlatFlat.length - 14 - 1
    ∧ calculateRSI [(1 : ℚ), 2] 14 = [] :=
  ⟨(claim_C6 closesFlatFlat 14).1 (by decide), (claim_C6 [(1 : ℚ), 2] 14).2 (by decide)⟩

/-! ## Claim C1: empty candle array -/

/-- C1 counterexample: on the empty candle array the evaluation throws
(embedded as `none`) instead of returning the zero result, because
`calculateChaikinVolatility` reduces an empty array with no initial value. -/
theorem claim_C1_counterexample :
    generateTradingSignals [] defaultParameters = none
    ∧ calculateChaikinVolatility [] [] 10 = none :=
  ⟨rfl, rfl⟩

/-- C1 amended: for an empty candle array, `calculateRSI` returns an empty
series without throwing, but `calculateChaikinVolatility` throws a
`TypeError` (`Array.prototype.reduce` of an empty array with no initial
value), so `generateTradingSignals` propagates an exception instead of
returning the zero result. -/
theorem claim_C1_amended (parameters : SignalParameters) (showAllSignals : Bool) :
    generateTradingSignals [] parameters showAllSignals = none
    ∧ calculateRSI [] 14 = []
    ∧ calculateChaikinVolatility [] [] 10 = none :=
  ⟨rfl, rfl, rfl⟩

/-! ## Projections of a successful evaluation -/

/-- Unfolding lemma for a successful `generateTradingSignals` call: the CV
series exists, and every returned field is the corresponding function of the
final scan state. -/
theorem generateTradingSignals_proj (d : List Candle) (p : SignalParameters) (sa : Bool)
    (r : SignalsResult) (h : generateTradingSignals d p sa = some r) :
    ∃ cvValues final,
      calculateChaikinVolatility (List.map (fun c => c.high) d)
        (List.map (fun c => c.low) d) 10 = some cvValues ∧
      final = (List.range' 1 ((calculateRSI (List.map (fun c => c.close) d) 14).length - 1)).foldl
        (scanStep d p sa (calculateRSI (List.map (fun c => c.close) d) 14) cvValues)
        ⟨none, [], [], []⟩ ∧
      r.tradeAnalytics.trades = final.completedTrades ∧
      r.numTrades = final.completedTrades.length ∧
      r.tradeAnalytics.initialInvestment = 1000 ∧
      r.tradeAnalytics.currentPortfolioValue =
        final.completedTrades.foldl (fun v t => v * (1 + t.percentageChange / 100)) 1000 ∧
      r.tradeAnalytics.totalPercentageChange =
        ((r.tradeAnalytics.currentPortfolioValue - 1000) / 1000) * 100 ∧
      r.profit = r.tradeAnalytics.totalPercentageChange ∧
      (∀ s ∈ r.signals, s ∈ final.signals ++ final.allSignals) := by
  simp only [generateTradingSignals] at h
  cases hcv : calculateChaikinVolatility (List.map (fun c => c.high) d)
      (List.map (fun c => c.low) d) 10 with
  | none => rw [hcv] at h; exact absurd h (by simp)
  | some cvValues =>
    rw [hcv] at h
    simp only [Option.some.injEq] at h
    subst h
    refine ⟨cvValues, _, rfl, rfl, rfl, rfl, rfl, rfl, rfl, rfl, ?_⟩
    intro s hs
    cases sa with
    | false => exact List.mem_append_left _ hs
    | true => exact List.mem_mergeSort.mp hs

/-! ## Claim C7: compounding invariant -/

theorem foldl_mul_one_add (l : List Trade) :
    ∀ v : ℚ, l.foldl (fun v t => v * (1 + t.percentageChange / 100)) v
      = v * (l.map (fun t => 1 + t.percentageChange / 100)).prod := by
  induction l with
  | nil => intro v; simp
  | cons t tl ih => intro v; simp [ih, mul_assoc]

/-- C7: for every evaluation result, the final portfolio value equals 1000
times the product over the trades, in order, of `1 + pct/100`; the reported
profit equals `(finalValue/1000 - 1)*100`; and the starting investment is the
constant 1000. -/
theorem claim_C7 (d : List Candle) (p : SignalParameters) (sa : Bool) (r : SignalsResult)
    (h : generateTradingSignals d p sa = some r) :
    r.tradeAnalytics.initialInvestment = 1000
    ∧ r.tradeAnalytics.currentPortfolioValue =
        1000 * (r.tradeAnalytics.trades.map (fun t => 1 + t.percentageChange / 100)).prod
    ∧ r.tradeAnalytics.totalPercentageChange =
        (r.tradeAnalytics.currentPortfolioValue / 1000 - 1) * 100
    ∧ r.profit = r.tradeAnalytics.totalPercentageChange := by
  obtain ⟨cvValues, final, hcv, hfinal, htr, hnum, hinit, hval, htot, hprofit, hsig⟩ :=
    generateTradingSignals_proj d p sa r h
  refine ⟨hinit, ?_, ?_, hprofit⟩
  · rw [hval, htr, foldl_mul_one_add]
  · rw [htot]; ring

/-- Witness for C7 at the sixteen-candle flat series. -/
theorem claim_C7_witness :
    ((generateTradingSignals flatCandles16 defaultParameters false).getD
        dummySignalsResult).tradeAnalytics.initialInvestment = 1000
    ∧ ((generateTradingSignals flatCandles16 defaultParameters false).getD
        dummySignalsResult).tradeAnalytics.currentPortfolioValue =
        1000 * (((generateTradingSignals flatCandles16 defaultParameters false).getD
          dummySignalsResult).tradeAnalytics.trades.map
            (fun t => 1 + t.percentageChange / 100)).prod
    ∧ ((generateTradingSignals flatCandles16 defaultParameters false).getD
        dummySignalsResult).tradeAnalytics.totalPercentageChange =
        (((generateTradingSignals flatCandles16 defaultParameters false).getD
          dummySignalsResult).tradeAnalytics.currentPortfolioValue / 1000 - 1) * 100
    ∧ ((generateTradingSignals flatCandles16 defaultParameters false).getD
        dummySignalsResult).profit =
        ((generateTradingSignals flatCandles16 defaultParameters false).getD
          dummySignalsResult).tradeAnalytics.totalPercentageChange :=
  claim_C7 flatCandles16 defaultParameters false _ rfl

/-! ## Claim C4: indicator-to-candle index alignment -/

theorem rsi_foldl_split (period : ℕ) (l : List ℚ) :
    ∀ (g a : ℚ) (out : List ℚ),
      l.foldl (rsiStep period) (g, a, out)
        = ((l.foldl (rsiStep period) (g, a, [])).1,
           (l.foldl (rsiStep period) (g, a, [])).2.1,
           out ++ (l.foldl (rsiStep period) (g, a, [])).2.2) := by
  induction l with
  | nil => intro g a out; simp
  | cons d tl ih =>
    intro g a out
    simp only [List.foldl_cons, rsiStep, List.nil_append]
    rw [ih]
    conv_rhs => rw [ih]
    simp

theorem rsi_foldl_getD_take (period : ℕ) (l : List ℚ) :
    ∀ (g a : ℚ) (i : ℕ), i < l.length →
      ((l.foldl (rsiStep period) (g, a, [])).2.2).getD i 0
        = (((l.take (i + 1)).foldl (rsiStep period) (g, a, [])).2.2).getD i 0 := by
  induction l with
  | nil => intro g a i h; simp at h
  | cons d tl ih =>
    intro g a i h
    cases i with
    | zero =>
      simp only [List.take_succ_cons, List.take_zero, List.foldl_cons, List.foldl_nil]
      rw [rsi_foldl_split]
      simp [rsiStep]
    | succ n =>
      simp only [List.take_succ_cons, List.foldl_cons]
      rw [rsi_foldl_split period tl, rsi_foldl_split period (tl.take (n + 1))]
      simp only [rsiStep, List.nil_append, List.singleton_append, List.getD_cons_succ]
      exact ih _ _ n (by simpa using h)

theorem calculateRSI_getD_eq_rsiAtBar (closes : List ℚ) (period i : ℕ)
    (hi : i < (calculateRSI closes period).length) :
    (calculateRSI closes period).getD i 0 = rsiAtBar closes period (i + period + 1) := by
  have hlen : (calculateRSI closes period).length
      = ((List.zipWith (fun prev next => next - prev) closes closes.tail).drop period).length := by
    simp only [calculateRSI, length_rsiStep_foldl, List.length_nil, Nat.zero_add]
  rw [hlen] at hi
  simp only [calculateRSI, rsiAtBar]
  have harith1 : i + period + 1 - period = i + 1 := by omega
  rw [harith1, Nat.add_sub_cancel]
  exact rsi_foldl_getD_take period _ _ _ i hi

/-! ## The scan-loop invariant -/

theorem getD_time_lt (candles : List Candle)
    (hAsc : List.Pairwise (fun a b => a.time < b.time) candles)
    {j k : ℕ} (hjk : j < k) (hk : k < candles.length) :
    (candles.getD j defaultCandle).time < (candles.getD k defaultCandle).time := by
  have hj : j < candles.length := lt_trans hjk hk
  rw [List.getD_eq_getElem candles defaultCandle hj,
    List.getD_eq_getElem candles defaultCandle hk]
  exact List.pairwise_iff_get.mp hAsc ⟨j, hj⟩ ⟨k, hk⟩ hjk

theorem TradeOk_mono {candles : List Candle} {i k : ℕ} (hik : i ≤ k) {t : Trade}
    (h : TradeOk candles i t) : TradeOk candles k t := by
  obtain ⟨jb, js, a1, a2, a3, a4, a5, a6, a7, a8, a9⟩ := h
  exact ⟨jb, js, a1, a2, by omega, a4, a5, a6, a7, a8, a9⟩

theorem ActiveOk_mono {candles : List Candle} {trades : List Trade} {i k : ℕ}
    (hik : i ≤ k) {q : ℤ × ℚ} (h : ActiveOk candles trades i q) :
    ActiveOk candles trades k q := by
  obtain ⟨j, a1, a2, a3, a4, a5, a6⟩ := h
  exact ⟨j, a1, by omega, a3, a4, a5, a6⟩

theorem SigOk_mono {candles : List Candle} {rsiV cvV : List ℚ} {i k : ℕ} (hik : i ≤ k)
    {s : Signal} (h : SigOk candles rsiV cvV i s) : SigOk candles rsiV cvV k s := by
  obtain ⟨j, a1, a2, a3, a4, a5, a6⟩ := h
  exact ⟨j, a1, by omega, a3, a4, a5, a6⟩

theorem ScanInv_mono {candles : List Candle} {rsiV cvV : List ℚ} {st : ScanState}
    {i k : ℕ} (hik : i ≤ k) (h : ScanInv candles rsiV cvV st i) :
    ScanInv candles rsiV cvV st k := by
  obtain ⟨h1, h2, h3, h4, h5⟩ := h
  exact ⟨fun t ht => TradeOk_mono hik (h1 t ht), h2, h3,
    fun q hq => ActiveOk_mono hik (h4 q hq),
    fun s hs => SigOk_mono hik (h5 s hs)⟩

theorem ScanInv_addAllSignal {candles : List Candle} {rsiV cvV : List ℚ} {st : ScanState}
    {i : ℕ} (h : ScanInv candles rsiV cvV st i) (t0 : ℤ) (k : SignalKind)
    (hs0 : SigOk candles rsiV cvV i ⟨t0, k⟩) :
    ScanInv candles rsiV cvV { st with allSignals := st.allSignals ++ [⟨t0, k⟩] } i := by
  obtain ⟨h1, h2, h3, h4, h5⟩ := h
  refine ⟨h1, h2, h3, h4, ?_⟩
  intro s hs
  rcases List.mem_append.mp hs with hs1 | hs2
  · exact h5 s (List.mem_append_left _ hs1)
  · rcases List.mem_append.mp hs2 with hs3 | hs4
    · exact h5 s (List.mem_append_right _ hs3)
    · rw [List.mem_singleton.mp hs4]
      exact hs0

theorem scanTransition_eq_none (p : SignalParameters) (st : ScanState) (c : Candle)
    (cv rsi : ℚ) (h : st.activeBuySignal = none) :
    scanTransition p st c cv rsi =
      if cv < p.buyCvThreshold ∧ rsi < p.buyRsiThreshold then
        { st with
          activeBuySignal := some (c.time, c.close),
          signals := st.signals ++ [⟨c.time, SignalKind.buyArrow⟩] }
      else st := by
  unfold scanTransition
  rw [h]

theorem scanTransition_eq_some (p : SignalParameters) (st : ScanState) (c : Candle)
    (cv rsi : ℚ) (bt : ℤ) (bp : ℚ) (h : st.activeBuySignal = some (bt, bp)) :
    scanTransition p st c cv rsi =
      if cv > p.sellCvThreshold ∧ rsi > p.sellRsiThreshold then
        { st with
          activeBuySignal := none,
          completedTrades := st.completedTrades ++
            [⟨bt, c.time, bp, c.close, calculatePercentageChange bp c.close⟩],
          signals := st.signals ++
            [⟨c.time, SignalKind.sellArrow⟩,
             ⟨c.time, SignalKind.pctSquare (calculatePercentageChange bp c.close)⟩] }
      else st := by
  unfold scanTransition
  rw [h]

theorem scanTransition_inv (candles : List Candle) (p : SignalParameters)
    (rsiV cvV : List ℚ) (hAsc : List.Pairwise (fun a b => a.time < b.time) candles)
    (st : ScanState) (i : ℕ) (hi1 : 1 ≤ i) (hir : i < rsiV.length)
    (hcv0 : 0 ≤ (cvV.length : ℤ) - (rsiV.length : ℤ) + (i : ℤ))
    (hin : i + 14 < candles.length) (cv rsi : ℚ)
    (h : ScanInv candles rsiV cvV st i) :
    ScanInv candles rsiV cvV
      (scanTransition p st (candles.getD (i + 14) defaultCandle) cv rsi) (i + 1) := by
  obtain ⟨h1, h2, h3, h4, h5⟩ := h
  have h1' : ∀ t ∈ st.completedTrades, TradeOk candles (i + 1) t :=
    fun t ht => TradeOk_mono (Nat.le_succ i) (h1 t ht)
  have h5' : ∀ s ∈ st.signals ++ st.allSignals, SigOk candles rsiV cvV (i + 1) s :=
    fun s hs => SigOk_mono (Nat.le_succ i) (h5 s hs)
  have hnew : ∀ k : SignalKind, SigOk candles rsiV cvV (i + 1)
      ⟨(candles.getD (i + 14) defaultCandle).time, k⟩ :=
    fun k => ⟨i, hi1, Nat.lt_succ_self i, hir, hcv0, hin, rfl⟩
  have hsells : ∀ t ∈ st.completedTrades,
      t.sellTime < (candles.getD (i + 14) defaultCandle).time := by
    intro t ht
    obtain ⟨jb, js, _, _, hjsi, hjs14, _, _, hsell, _, _⟩ := h1 t ht
    rw [hsell]
    exact getD_time_lt candles hAsc (by omega) hin
  cases hact : st.activeBuySignal with
  | none =>
    rw [scanTransition_eq_none p st _ cv rsi hact]
    split
    · refine ⟨h1', h2, h3, ?_, ?_⟩
      · intro q hq
        simp only [Option.mem_def, Option.some.injEq] at hq
        subst hq
        exact ⟨i, hi1, Nat.lt_succ_self i, hin, rfl, rfl, hsells⟩
      · intro s hs
        rcases List.mem_append.mp hs with hs1 | hs2
        · rcases List.mem_append.mp hs1 with ha | hb
          · exact h5' s (List.mem_append_left _ ha)
          · rw [List.mem_singleton.mp hb]
            exact hnew SignalKind.buyArrow
        · exact h5' s (List.mem_append_right _ hs2)
    · exact ScanInv_mono (Nat.le_succ i) ⟨h1, h2, h3, h4, h5⟩
  | some pr =>
    obtain ⟨bt, bp⟩ := pr
    obtain ⟨j0, hj01, hj0i, hj0n, hbt0, hbp0, hsellsbt0⟩ :=
      h4 (bt, bp) (Option.mem_def.mpr hact)
    have hbt : bt = (candles.getD (j0 + 14) defaultCandle).time := hbt0
    have hbp : bp = (candles.getD (j0 + 14) defaultCandle).close := hbp0
    have hsellsbt : ∀ t ∈ st.completedTrades, t.sellTime < bt := hsellsbt0
    rw [scanTransition_eq_some p st _ cv rsi bt bp hact]
    split
    · refine ⟨?_, ?_, ?_, ?_, ?_⟩
      · intro t ht
        rcases List.mem_append.mp ht with ht1 | ht2
        · exact h1' t ht1
        · rw [List.mem_singleton.mp ht2]
          exact ⟨j0, i, hj01, hj0i, Nat.lt_succ_self i, hin, hbt, hbp, rfl, rfl, rfl⟩
      · rw [List.chain'_append]
        refine ⟨h2, List.chain'_singleton _, ?_⟩
        intro x hx y hy
        obtain ⟨hne, hxeq⟩ := List.mem_getLast?_eq_getLast hx
        simp only [List.head?_cons, Option.mem_def, Option.some.injEq] at hy
        subst hy
        rw [hxeq]
        exact hsellsbt _ (List.getLast_mem hne)
      · intro t ht
        rcases List.mem_append.mp ht with ht1 | ht2
        · exact h3 t ht1
        · rw [List.mem_singleton.mp ht2]
          show bt < (candles.getD (i + 14) defaultCandle).time
          rw [hbt]
          exact getD_time_lt candles hAsc (by omega) hin
      · intro q hq
        exact absurd hq (by simp)
      · intro s hs
        rcases List.mem_append.mp hs with hs1 | hs2
        · rcases List.mem_append.mp hs1 with ha | hb
          · exact h5' s (List.mem_append_left _ ha)
          · simp only [List.mem_cons, List.mem_singleton, List.not_mem_nil, or_false] at hb
            rcases hb with rfl | rfl
            · exact hnew SignalKind.sellArrow
            · exact hnew (SignalKind.pctSquare _)
        · exact h5' s (List.mem_append_right _ hs2)
    · exact ScanInv_mono (Nat.le_succ i) ⟨h1, h2, h3, h4, h5⟩

theorem scanDebugMarkers_inv (candles : List Candle) (rsiV cvV : List ℚ) (sa : Bool)
    (p : SignalParameters) (st1 : ScanState) (c : Candle) (cv rsi : ℚ) (i : ℕ)
    (h : ScanInv candles rsiV cvV st1 i)
    (hnew : ∀ k : SignalKind, SigOk candles rsiV cvV i ⟨c.time, k⟩) :
    ScanInv candles rsiV cvV (scanDebugMarkers sa p st1 c cv rsi) i := by
  simp only [scanDebugMarkers]
  split
  · split
    · refine ScanInv_addAllSignal ?_ _ _ (hnew _)
      split
      · exact ScanInv_addAllSignal h _ _ (hnew _)
      · exact h
    · split
      · exact ScanInv_addAllSignal h _ _ (hnew _)
      · exact h
  · exact h

theorem scanStep_inv (candles : List Candle) (p : SignalParameters) (sa : Bool)
    (rsiV cvV : List ℚ) (hAsc : List.Pairwise (fun a b => a.time < b.time) candles)
    (st : ScanState) (i : ℕ) (hi1 : 1 ≤ i) (hir : i < rsiV.length)
    (h : ScanInv candles rsiV cvV st i) :
    ScanInv candles rsiV cvV (scanStep candles p sa rsiV cvV st i) (i + 1) := by
  simp only [scanStep]
  split
  · next hguard =>
    obtain ⟨hcv0, hin⟩ := hguard
    exact scanDebugMarkers_inv candles rsiV cvV sa p _ _ _ _ (i + 1)
      (scanTransition_inv candles p rsiV cvV hAsc st i hi1 hir hcv0 hin _ _ h)
      (fun k => ⟨i, hi1, Nat.lt_succ_self i, hir, hcv0, hin, rfl⟩)
  · exact ScanInv_mono (Nat.le_succ i) h

theorem scan_foldl_inv (candles : List Candle) (p : SignalParameters) (sa : Bool)
    (rsiV cvV : List ℚ) (hAsc : List.Pairwise (fun a b => a.time < b.time) candles)
    (l : List ℕ) :
    ∀ (st : ScanState) (i : ℕ),
      List.Pairwise (· < ·) l → (∀ x ∈ l, i ≤ x) → (∀ x ∈ l, 1 ≤ x ∧ x < rsiV.length) →
      ScanInv candles rsiV cvV st i →
      ∃ k, ScanInv candles rsiV cvV (l.foldl (scanStep candles p sa rsiV cvV) st) k := by
  induction l with
  | nil => intro st i _ _ _ h; exact ⟨i, h⟩
  | cons x xs ih =>
    intro st i hpw hge hbnd h
    simp only [List.foldl_cons]
    apply ih _ (x + 1)
    · exact hpw.of_cons
    · intro y hy
      have := (List.pairwise_cons.mp hpw).1 y hy
      omega
    · intro y hy
      exact hbnd y (List.mem_cons_of_mem _ hy)
    · exact scanStep_inv candles p sa rsiV cvV hAsc st x
        (hbnd x (List.mem_cons_self _ _)).1 (hbnd x (List.mem_cons_self _ _)).2
        (ScanInv_mono (hge x (List.mem_cons_self _ _)) h)

theorem generate_scanInv (candles : List Candle) (p : SignalParameters) (sa : Bool)
    (r : SignalsResult)
    (hAsc : List.Pairwise (fun a b => a.time < b.time) candles)
    (h : generateTradingSignals candles p sa = some r) :
    ∃ cvValues final k,
      calculateChaikinVolatility (List.map (fun c => c.high) candles)
        (List.map (fun c => c.low) candles) 10 = some cvValues ∧
      ScanInv candles (calculateRSI (List.map (fun c => c.close) candles) 14) cvValues final k ∧
      r.tradeAnalytics.trades = final.completedTrades ∧
      r.numTrades = final.completedTrades.length ∧
      (∀ s ∈ r.signals, s ∈ final.signals ++ final.allSignals) := by
  obtain ⟨cvV, final, hcv, hfinal, htr, hnum, _, _, _, _, hsig⟩ :=
    generateTradingSignals_proj candles p sa r h
  refine ⟨cvV, final, ?_, hcv, ?_, htr, hnum, hsig⟩
  case _ => exact Classical.choose (hfinal ▸ scan_foldl_inv candles p sa _ cvV hAsc _
    ⟨none, [], [], []⟩ 1 (List.pairwise_lt_range' _ _)
    (fun x hx => (List.mem_range'_1.mp hx).1)
    (fun x hx => by
      have := List.mem_range'_1.mp hx
      exact ⟨this.1, by omega⟩)
    ⟨fun t ht => absurd ht (List.not_mem_nil t), List.chain'_nil,
     fun t ht => absurd ht (List.not_mem_nil t),
     fun q hq => absurd hq (by simp),
     fun s hs => absurd hs (by simp)⟩)
  case _ => exact Classical.choose_spec (hfinal ▸ scan_foldl_inv candles p sa _ cvV hAsc _
    ⟨none, [], [], []⟩ 1 (List.pairwise_lt_range' _ _)
    (fun x hx => (List.mem_range'_1.mp hx).1)
    (fun x hx => by
      have := List.mem_range'_1.mp hx
      exact ⟨this.1, by omega⟩)
    ⟨fun t ht => absurd ht (List.not_mem_nil t), List.chain'_nil,
     fun t ht => absurd ht (List.not_mem_nil t),
     fun q hq => absurd hq (by simp),
     fun s hs => absurd hs (by simp)⟩)

/-! ## The positional invariant (no ordering assumptions on the candles) -/

theorem ActivePos_mono {candles : List Candle} {i k : ℕ} (hik : i ≤ k) {q : ℤ × ℚ}
    (h : ActivePos candles i q) : ActivePos candles k q := by
  obtain ⟨j, a1, a2, a3, a4, a5⟩ := h
  exact ⟨j, a1, by omega, a3, a4, a5⟩

theorem PosInv_mono {candles : List Candle} {rsiV cvV : List ℚ} {st : ScanState}
    {i k : ℕ} (hik : i ≤ k) (h : PosInv candles rsiV cvV st i) :
    PosInv candles rsiV cvV st k := by
  obtain ⟨h1, h2, h3⟩ := h
  exact ⟨fun t ht => TradeOk_mono hik (h1 t ht),
    fun q hq => ActivePos_mono hik (h2 q hq),
    fun s hs => SigOk_mono hik (h3 s hs)⟩

theorem PosInv_addAllSignal {candles : List Candle} {rsiV cvV : List ℚ} {st : ScanState}
    {i : ℕ} (h : PosInv candles rsiV cvV st i) (t0 : ℤ) (k : SignalKind)
    (hs0 : SigOk candles rsiV cvV i ⟨t0, k⟩) :
    PosInv candles rsiV cvV { st with allSignals := st.allSignals ++ [⟨t0, k⟩] } i := by
  obtain ⟨h1, h2, h3⟩ := h
  refine ⟨h1, h2, ?_⟩
  intro s hs
  rcases List.mem_append.mp hs with hs1 | hs2
  · exact h3 s (List.mem_append_left _ hs1)
  · rcases List.mem_append.mp hs2 with hs3 | hs4
    · exact h3 s (List.mem_append_right _ hs3)
    · rw [List.mem_singleton.mp hs4]
      exact hs0

theorem scanTransition_posInv (candles : List Candle) (p : SignalParameters)
    (rsiV cvV : List ℚ) (st : ScanState) (i : ℕ) (hi1 : 1 ≤ i) (hir : i < rsiV.length)
    (hcv0 : 0 ≤ (cvV.length : ℤ) - (rsiV.length : ℤ) + (i : ℤ))
    (hin : i + 14 < candles.length) (cv rsi : ℚ)
    (h : PosInv candles rsiV cvV st i) :
    PosInv candles rsiV cvV
      (scanTransition p st (candles.getD (i + 14) defaultCandle) cv rsi) (i + 1) := by
  obtain ⟨h1, h2, h3⟩ := h
  have h1' : ∀ t ∈ st.completedTrades, TradeOk candles (i + 1) t :=
    fun t ht => TradeOk_mono (Nat.le_succ i) (h1 t ht)
  have h3' : ∀ s ∈ st.signals ++ st.allSignals, SigOk candles rsiV cvV (i + 1) s :=
    fun s hs => SigOk_mono (Nat.le_succ i) (h3 s hs)
  have hnew : ∀ k : SignalKind, SigOk candles rsiV cvV (i + 1)
      ⟨(candles.getD (i + 14) defaultCandle).time, k⟩ :=
    fun k => ⟨i, hi1, Nat.lt_succ_self i, hir, hcv0, hin, rfl⟩
  cases hact : st.activeBuySignal with
  | none =>
    rw [scanTransition_eq_none p st _ cv rsi hact]
    split
    · refine ⟨h1', ?_, ?_⟩
      · intro q hq
        simp only [Option.mem_def, Option.some.injEq] at hq
        subst hq
        exact ⟨i, hi1, Nat.lt_succ_self i, hin, rfl, rfl⟩
      · intro s hs
        rcases List.mem_append.mp hs with hs1 | hs2
        · rcases List.mem_append.mp hs1 with ha | hb
          · exact h3' s (List.mem_append_left _ ha)
          · rw [List.mem_singleton.mp hb]
            exact hnew SignalKind.buyArrow
        · exact h3' s (List.mem_append_right _ hs2)
    · exact PosInv_mono (Nat.le_succ i) ⟨h1, h2, h3⟩
  | some pr =>
    obtain ⟨bt, bp⟩ := pr
    obtain ⟨j0, hj01, hj0i, hj0n, hbt0, hbp0⟩ := h2 (bt, bp) (Option.mem_def.mpr hact)
    have hbt : bt = (candles.getD (j0 + 14) defaultCandle).time := hbt0
    have hbp : bp = (candles.getD (j0 + 14) defaultCandle).close := hbp0
    rw [scanTransition_eq_some p st _ cv rsi bt bp hact]
    split
    · refine ⟨?_, ?_, ?_⟩
      · intro t ht
        rcases List.mem_append.mp ht with ht1 | ht2
        · exact h1' t ht1
        · rw [List.mem_singleton.mp ht2]
          exact ⟨j0, i, hj01, hj0i, Nat.lt_succ_self i, hin, hbt, hbp, rfl, rfl, rfl⟩
      · intro q hq
        exact absurd hq (by simp)
      · intro s hs
        rcases List.mem_append.mp hs with hs1 | hs2
        · rcases List.mem_append.mp hs1 with ha | hb
          · exact h3' s (List.mem_append_left _ ha)
          · simp only [List.mem_cons, List.mem_singleton, List.not_mem_nil, or_false] at hb
            rcases hb with rfl | rfl
            · exact hnew SignalKind.sellArrow
            · exact hnew (SignalKind.pctSquare _)
        · exact h3' s (List.mem_append_right _ hs2)
    · exact PosInv_mono (Nat.le_succ i) ⟨h1, h2, h3⟩

theorem scanDebugMarkers_posInv (candles : List Candle) (rsiV cvV : List ℚ) (sa : Bool)
    (p : SignalParameters) (st1 : ScanState) (c : Candle) (cv rsi : ℚ) (i : ℕ)
    (h : PosInv candles rsiV cvV st1 i)
    (hnew : ∀ k : SignalKind, SigOk candles rsiV cvV i ⟨c.time, k⟩) :
    PosInv candles rsiV cvV (scanDebugMarkers sa p st1 c cv rsi) i := by
  simp only [scanDebugMarkers]
  split
  · split
    · refine PosInv_addAllSignal ?_ _ _ (hnew _)
      split
      · exact PosInv_addAllSignal h _ _ (hnew _)
      · exact h
    · split
      · exact PosInv_addAllSignal h _ _ (hnew _)
      · exact h
  · exact h

theorem scanStep_posInv (candles : List Candle) (p : SignalParameters) (sa : Bool)
    (rsiV cvV : List ℚ) (st : ScanState) (i : ℕ) (hi1 : 1 ≤ i) (hir : i < rsiV.length)
    (h : PosInv candles rsiV cvV st i) :
    PosInv candles rsiV cvV (scanStep candles p sa rsiV cvV st i) (i + 1) := by
  simp only [scanStep]
  split
  · next hguard =>
    obtain ⟨hcv0, hin⟩ := hguard
    exact scanDebugMarkers_posInv candles rsiV cvV sa p _ _ _ _ (i + 1)
      (scanTransition_posInv candles p rsiV cvV st i hi1 hir hcv0 hin _ _ h)
      (fun k => ⟨i, hi1, Nat.lt_succ_self i, hir, hcv0, hin, rfl⟩)
  · exact PosInv_mono (Nat.le_succ i) h

theorem scan_foldl_posInv (candles : List Candle) (p : SignalParameters) (sa : Bool)
    (rsiV cvV : List ℚ) (l : List ℕ) :
    ∀ (st : ScanState) (i : ℕ),
      List.Pairwise (· < ·) l → (∀ x ∈ l, i ≤ x) → (∀ x ∈ l, 1 ≤ x ∧ x < rsiV.length) →
      PosInv candles rsiV cvV st i →
      ∃ k, PosInv candles rsiV cvV (l.foldl (scanStep candles p sa rsiV cvV) st) k := by
  induction l with
  | nil => intro st i _ _ _ h; exact ⟨i, h⟩
  | cons x xs ih =>
    intro st i hpw hge hbnd h
    simp only [List.foldl_cons]
    apply ih _ (x + 1)
    · exact hpw.of_cons
    · intro y hy
      have := (List.pairwise_cons.mp hpw).1 y hy
      omega
    · intro y hy
      exact hbnd y (List.mem_cons_of_mem _ hy)
    · exact scanStep_posInv candles p sa rsiV cvV st x
        (hbnd x (List.mem_cons_self _ _)).1 (hbnd x (List.mem_cons_self _ _)).2
        (PosInv_mono (hge x (List.mem_cons_self _ _)) h)

theorem generate_posInv (candles : List Candle) (p : SignalParameters) (sa : Bool)
    (r : SignalsResult) (h : generateTradingSignals candles p sa = some r) :
    ∃ cvValues final k,
      calculateChaikinVolatility (List.map (fun c => c.high) candles)
        (List.map (fun c => c.low) candles) 10 = some cvValues ∧
      PosInv candles (calculateRSI (List.map (fun c => c.close) candles) 14) cvValues final k ∧
      r.tradeAnalytics.trades = final.completedTrades ∧
      r.numTrades = final.completedTrades.length ∧
      (∀ s ∈ r.signals, s ∈ final.signals ++ final.allSignals) := by
  obtain ⟨cvV, final, hcv, hfinal, htr, hnum, _, _, _, _, hsig⟩ :=
    generateTradingSignals_proj candles p sa r h
  have hfold := scan_foldl_posInv candles p sa
    (calculateRSI (List.map (fun c => c.close) candles) 14) cvV
    (List.range' 1 ((calculateRSI (List.map (fun c => c.close) candles) 14).length - 1))
    ⟨none, [], [], []⟩ 1 (List.pairwise_lt_range' _ _)
    (fun x hx => (List.mem_range'_1.mp hx).1)
    (fun x hx => by
      have := List.mem_range'_1.mp hx
      exact ⟨this.1, by omega⟩)
    ⟨fun t ht => absurd ht (List.not_mem_nil t),
     fun q hq => absurd hq (by simp),
     fun s hs => absurd hs (by simp)⟩
  obtain ⟨k, hk⟩ := hfold
  exact ⟨cvV, final, k, hcv, hfinal ▸ hk, htr, hnum, hsig⟩

/-! ## Claim C8: trade-list invariants -/

/-- C8: for every candle series with strictly ascending timestamps and every
parameter set, a successful evaluation satisfies: the trade count equals the
length of the trades list; every trade sells strictly after it buys; and the
trades are non-overlapping in scan order (each sell strictly precedes the next
buy), which is the observable content of "at most one open position at any
scan position". -/
theorem claim_C8 (candles : List Candle) (p : SignalParameters) (sa : Bool)
    (r : SignalsResult)
    (hAsc : List.Pairwise (fun a b => a.time < b.time) candles)
    (h : generateTradingSignals candles p sa = some r) :
    r.numTrades = r.tradeAnalytics.trades.length
    ∧ (∀ t ∈ r.tradeAnalytics.trades, t.sellTime > t.buyTime)
    ∧ List.Chain' (fun a b => a.sellTime < b.buyTime) r.tradeAnalytics.trades := by
  obtain ⟨cvV, final, k, hcv, hinv, htr, hnum, hsig⟩ := generate_scanInv candles p sa r hAsc h
  obtain ⟨h1, h2, h3, h4, h5⟩ := hinv
  refine ⟨by rw [htr, hnum], ?_, ?_⟩
  · intro t ht
    exact h3 t (htr ▸ ht)
  · rw [htr]
    exact h2

/-- Witness for C8 at a forty-candle flat series whose evaluation completes
ten trades. -/
theorem claim_C8_witness :
    ((generateTradingSignals tradeCandles40 tradeParams false).getD dummySignalsResult).numTrades
      = ((generateTradingSignals tradeCandles40 tradeParams false).getD
          dummySignalsResult).tradeAnalytics.trades.length
    ∧ (∀ t ∈ ((generateTradingSignals tradeCandles40 tradeParams false).getD
          dummySignalsResult).tradeAnalytics.trades, t.sellTime > t.buyTime)
    ∧ List.Chain' (fun a b => a.sellTime < b.buyTime)
        ((generateTradingSignals tradeCandles40 tradeParams false).getD
          dummySignalsResult).tradeAnalytics.trades :=
  claim_C8 tradeCandles40 tradeParams false _ (by decide) rfl

/-! ## Claim C10: which indices the scan evaluates -/

/-- C10: every emitted signal originates from an indicator index `i ≥ 1`
(index 0 is never evaluated) that passed the guard: its CV-aligned index
`cvValues.length - rsiValues.length + i` is non-negative and `i + 14` is a
valid candle index; consequently the signal carries the timestamp of a candle
at index `i + 14 ≥ 15`, and when the CV series is shorter than the RSI series
the leading RSI indices produce nothing. -/
theorem claim_C10 (candles : List Candle) (p : SignalParameters) (sa : Bool)
    (r : SignalsResult) (h : generateTradingSignals candles p sa = some r) :
    ∀ s ∈ r.signals, ∃ i : ℕ,
      1 ≤ i
      ∧ i < (calculateRSI (List.map (fun c => c.close) candles) 14).length
      ∧ 0 ≤ ((((calculateChaikinVolatility (List.map (fun c => c.high) candles)
            (List.map (fun c => c.low) candles) 10).getD []).length : ℤ)
          - ((calculateRSI (List.map (fun c => c.close) candles) 14).length : ℤ) + (i : ℤ))
      ∧ i + 14 < candles.length
      ∧ s.time = (candles.getD (i + 14) defaultCandle).time
      ∧ 15 ≤ i + 14 := by
  obtain ⟨cvV, final, k, hcv, hinv, htr, hnum, hsig⟩ := generate_posInv candles p sa r h
  obtain ⟨_, _, h3⟩ := hinv
  intro s hs
  obtain ⟨j, a1, a2, a3, a4, a5, a6⟩ := h3 s (hsig s hs)
  rw [hcv]
  exact ⟨j, a1, a3, by simpa using a4, a5, a6, by omega⟩

/-- Witness for C10 at the Scenario A series with thresholds that fire a buy
signal at indicator index 4 (candle 18): the emitted buy marker at time 18
originates from an evaluable index. -/
theorem claim_C10_witness :
    ∃ i : ℕ,
      1 ≤ i
      ∧ i < (calculateRSI (List.map (fun c => c.close) scenarioACandles) 14).length
      ∧ 0 ≤ ((((calculateChaikinVolatility (List.map (fun c => c.high) scenarioACandles)
            (List.map (fun c => c.low) scenarioACandles) 10).getD []).length : ℤ)
          - ((calculateRSI (List.map (fun c => c.close) scenarioACandles) 14).length : ℤ)
          + (i : ℤ))
      ∧ i + 14 < scenarioACandles.length
      ∧ (Signal.mk 18 SignalKind.buyArrow).time
          = (scenarioACandles.getD (i + 14) defaultCandle).time
      ∧ 15 ≤ i + 14 :=
  claim_C10 scenarioACandles paramsD false _ rfl ⟨18, SignalKind.buyArrow⟩
    (by norm_num [generateTradingSignals, calculateRSI, rsiStep, calculateChaikinVolatility,
      emaStep, scanStep, scanTransition, scanDebugMarkers, calculatePercentageChange,
      paramsD, scenarioACandles, mkCandle, defaultCandle, List.range'])

/-- C4 counterexample: two close series that agree on candle indices 0
through 14 (so in particular on candle 14) but differ at candle index 15
produce different RSI values at output index 0.  Hence the value at output
index `i` is not the RSI computed at candle `i + 14`: it genuinely depends on
candle `i + 15`. -/
theorem claim_C4_counterexample :
    closesFlatFlat.take 15 = closesFlatDrop.take 15
    ∧ closesFlatFlat.length = 16 ∧ closesFlatDrop.length = 16
    ∧ calculateRSI closesFlatFlat 14 ≠ calculateRSI closesFlatDrop 14 := by
  refine ⟨by decide, by decide, by decide, ?_⟩
  norm_num [calculateRSI, rsiStep, closesFlatFlat, closesFlatDrop]

/-- C4 amended: indicator index `i` maps to candle index `i + 15` for the RSI
computation — the value at output index `i` is the Wilder RSI at bar
`i + 15` — while the simulator reads the candle at index `i + 14` (its time
and close) whenever it acts on RSI index `i`, as witnessed by every completed
trade reading its times and prices at candle indices `jb + 14` and `js + 14`. -/
theorem claim_C4_amended (candles : List Candle) (p : SignalParameters) (sa : Bool)
    (r : SignalsResult) (_hlen : 2 * 14 + 2 ≤ candles.length)
    (h : generateTradingSignals candles p sa = some r) :
    (∀ i, i < (calculateRSI (List.map (fun c => c.close) candles) 14).length →
      (calculateRSI (List.map (fun c => c.close) candles) 14).getD i 0
        = rsiAtBar (List.map (fun c => c.close) candles) 14 (i + 15))
    ∧ (∀ t ∈ r.tradeAnalytics.trades, ∃ jb js : ℕ, jb < js ∧ js + 14 < candles.length ∧
        t.buyTime = (candles.getD (jb + 14) defaultCandle).time ∧
        t.buyPrice = (candles.getD (jb + 14) defaultCandle).close ∧
        t.sellTime = (candles.getD (js + 14) defaultCandle).time ∧
        t.sellPrice = (candles.getD (js + 14) defaultCandle).close) := by
  constructor
  · intro i hi
    have h15 := calculateRSI_getD_eq_rsiAtBar (List.map (fun c => c.close) candles) 14 i hi
    rw [show i + 14 + 1 = i + 15 by omega] at h15
    exact h15
  · intro t ht
    obtain ⟨cvV, final, k, hcv, hinv, htr, hnum, hsig⟩ := generate_posInv candles p sa r h
    obtain ⟨h1, _, _⟩ := hinv
    obtain ⟨jb, js, _, hbjs, _, hjs14, hb1, hb2, hb3, hb4, _⟩ := h1 t (htr ▸ ht)
    exact ⟨jb, js, hbjs, hjs14, hb1, hb2, hb3, hb4⟩

/-- Witness for C4 at the forty-candle flat series, whose evaluation under
permissive thresholds completes trades. -/
theorem claim_C4_witness :
    (∀ i, i < (calculateRSI (List.map (fun c => c.close) tradeCandles40) 14).length →
      (calculateRSI (List.map (fun c => c.close) tradeCandles40) 14).getD i 0
        = rsiAtBar (List.map (fun c => c.close) tradeCandles40) 14 (i + 15))
    ∧ (∀ t ∈ ((generateTradingSignals tradeCandles40 tradeParams false).getD
          dummySignalsResult).tradeAnalytics.trades,
        ∃ jb js : ℕ, jb < js ∧ js + 14 < tradeCandles40.length ∧
        t.buyTime = (tradeCandles40.getD (jb + 14) defaultCandle).time ∧
        t.buyPrice = (tradeCandles40.getD (jb + 14) defaultCandle).close ∧
        t.sellTime = (tradeCandles40.getD (js + 14) defaultCandle).time ∧
        t.sellPrice = (tradeCandles40.getD (js + 14) defaultCandle).close) :=
  claim_C4_amended tradeCandles40 tradeParams false _ (by decide) rfl

/-! ## Claim C5: Scenario A -/

theorem scanDebugMarkers_completedTrades (sa : Bool) (p : SignalParameters)
    (st1 : ScanState) (c : Candle) (cv rsi : ℚ) :
    (scanDebugMarkers sa p st1 c cv rsi).completedTrades = st1.completedTrades := by
  simp only [scanDebugMarkers]
  split
  · split
    · split <;> rfl
    · split <;> rfl
  · rfl

theorem scanTransition_completedTrades_none (p : SignalParameters) (st : ScanState)
    (c : Candle) (cv rsi : ℚ) (hact : st.activeBuySignal = none) :
    (scanTransition p st c cv rsi).completedTrades = st.completedTrades := by
  rw [scanTransition_eq_none p st c cv rsi hact]
  split <;> rfl

/-- C5 amended: for every 20-candle series — in particular 20 flat bars with
a dip at bar 15 and a rise at bar 18 — and any thresholds, the evaluation
completes zero trades.  With 20 candles the RSI series has 5 values and the
CV series only 1, so the only indicator index passing the guard is `i = 4`
(candle 18); a single evaluable index can open at most one position and can
never close one, so no trade (and no Scenario A trade in particular) can
exist. -/
theorem claim_C5_amended (candles : List Candle) (p : SignalParameters) (sa : Bool)
    (r : SignalsResult) (hlen : candles.length = 20)
    (h : generateTradingSignals candles p sa = some r) :
    r.tradeAnalytics.trades = [] ∧ r.numTrades = 0 := by
  obtain ⟨cvV, final, hcv, hfinal, htr, hnum, _, _, _, _, _⟩ :=
    generateTradingSignals_proj candles p sa r h
  have hr : (calculateRSI (List.map (fun c => c.close) candles) 14).length = 5 := by
    rw [calculateRSI_length, List.length_map, hlen]
  have hc : cvV.length = 1 := by
    have hlc := calculateChaikinVolatility_length _ _ _ _ hcv
    rw [List.length_map, List.length_map, hlen] at hlc
    norm_num at hlc
    exact hlc
  have key : ∀ (st : ScanState) (i : ℕ), i ≤ 3 →
      scanStep candles p sa (calculateRSI (List.map (fun c => c.close) candles) 14) cvV st i
        = st := by
    intro st i hi
    simp only [scanStep]
    rw [if_neg]
    intro hcontra
    rw [hr, hc] at hcontra
    obtain ⟨hcvi, _⟩ := hcontra
    norm_num at hcvi
    omega
  have step4 : ∀ st : ScanState, st.activeBuySignal = none →
      (scanStep candles p sa (calculateRSI (List.map (fun c => c.close) candles) 14) cvV
        st 4).completedTrades = st.completedTrades := by
    intro st hact
    simp only [scanStep]
    split
    · rw [scanDebugMarkers_completedTrades,
        scanTransition_completedTrades_none _ _ _ _ _ hact]
    · rfl
  have hfl : final.completedTrades = [] := by
    rw [hfinal, hr]
    have hrange : List.range' 1 (5 - 1) = [1, 2, 3, 4] := rfl
    rw [hrange]
    simp only [List.foldl_cons, List.foldl_nil,
      key _ 1 (by norm_num), key _ 2 (by norm_num), key _ 3 (by norm_num)]
    exact step4 ⟨none, [], [], []⟩ rfl
  exact ⟨htr.trans hfl, by rw [hnum, hfl]; rfl⟩

/-- C5 counterexample: the Scenario A series (flat bars, dip at bar 15 giving
RSI value 0 < 40 at the dip, rise at bar 18 giving an RSI value above 72 at
the rise) evaluated with the default thresholds yields zero trades, not the
one trade the scenario predicts; its profit is 0, not the bar-15-to-bar-18
percentage change. -/
theorem claim_C5_counterexample :
    (calculateRSI (List.map (fun c => c.close) scenarioACandles) 14).getD 0 0 < 40
    ∧ (calculateRSI (List.map (fun c => c.close) scenarioACandles) 14).getD 3 0 > 72
    ∧ (generateTradingSignals scenarioACandles defaultParameters false).map
        (fun r => r.numTrades) = some 0
    ∧ (generateTradingSignals scenarioACandles defaultParameters false).map
        (fun r => r.profit) = some 0 := by
  refine ⟨?_, ?_, ?_, ?_⟩ <;>
    norm_num [generateTradingSignals, calculateRSI, rsiStep, calculateChaikinVolatility,
      emaStep, scanStep, scanTransition, scanDebugMarkers, calculatePercentageChange,
      defaultParameters, defaultCandle, scenarioACandles, mkCandle, List.range']

/-- Witness for C5 at the Scenario A series itself. -/
theorem claim_C5_witness :
    ((generateTradingSignals scenarioACandles defaultParameters false).getD
        dummySignalsResult).tradeAnalytics.trades = []
    ∧ ((generateTradingSignals scenarioACandles defaultParameters false).getD
        dummySignalsResult).numTrades = 0 :=
  claim_C5_amended scenarioACandles defaultParameters false _ (by decide) rfl

/-! ## Claim C2: the minimum-trade-count filter -/

theorem climb_foldlM_filter (data : List Candle) (choices : List (Fin 4 × Bool)) :
    ∀ cur c : OptimizationResult,
      choices.foldlM (climbStep data) cur = some c →
      c = cur ∨ 3 ≤ c.numTrades := by
  induction choices with
  | nil =>
    intro cur c h
    simp only [List.foldlM_nil] at h
    exact Or.inl (Option.some.inj h).symm
  | cons ch rest ih =>
    intro cur c h
    rw [List.foldlM_cons] at h
    cases hstep : climbStep data cur ch with
    | none =>
      rw [hstep] at h
      exact absurd h (by simp)
    | some cur1 =>
      rw [hstep] at h
      rw [show ((some cur1 : Option OptimizationResult) >>= fun x =>
        List.foldlM (climbStep data) x rest) = List.foldlM (climbStep data) cur1 rest
        from rfl] at h
      rcases ih cur1 c h with rfl | hge
      · simp only [climbStep] at hstep
        cases hev : generateTradingSignals data
            (randomNeighbor cur.toSignalParameters ch.1 ch.2) with
        | none =>
          rw [hev] at hstep
          exact absurd hstep (by simp)
        | some result =>
          rw [hev] at hstep
          simp only [Option.some.injEq] at hstep
          subst hstep
          split
          · next hcond => exact Or.inr hcond.2
          · exact Or.inl rfl
      · exact Or.inr hge

/-- C2 amended: the `numTrades >= 3` filter guards only the acceptance of
neighbors inside a climb.  Every climb result either satisfies the filter, or
is the unconditionally adopted evaluated initial sample, or is the null-data
fallback; since the outer loop accepts any climb result whose profit beats the
incumbent, an initial sample with fewer than 3 trades (for example profit 0
with 0 trades, which beats the sentinel `-Infinity`) can become the best of a run, so the sentinel survives only when no improving climb completes — not
whenever every candidate fails the filter. -/
theorem claim_C2_amended (ohlcvData : Option (List Candle))
    (testParams initParams : SignalParameters) (choices : List (Fin 4 × Bool))
    (c : OptimizationResult)
    (h : runOneHillClimb ohlcvData testParams initParams choices = some c) :
    3 ≤ c.numTrades
    ∨ c.toSignalParameters = initParams
    ∨ (ohlcvData = none ∧ c.toSignalParameters = testParams ∧ c.maxProfit = ⊥) := by
  cases ohlcvData with
  | none =>
    simp only [runOneHillClimb, Option.some.injEq] at h
    subst h
    exact Or.inr (Or.inr ⟨rfl, rfl, rfl⟩)
  | some data =>
    simp only [runOneHillClimb] at h
    cases hev : generateTradingSignals data initParams with
    | none =>
      rw [hev] at h
      exact absurd h (by simp)
    | some initialResult =>
      rw [hev] at h
      rcases climb_foldlM_filter data choices _ c h with rfl | hge
      · exact Or.inr (Or.inl rfl)
      · exact Or.inl hge

/-- Witness for C2 (amended) at a sixteen-candle flat series: the climb with
no neighbor draws returns its initial sample. -/
theorem claim_C2_witness :
    3 ≤ ((runOneHillClimb (some flatCandles16) defaultParameters paramsA []).getD
        initialHookState.bestParams).numTrades
    ∨ ((runOneHillClimb (some flatCandles16) defaultParameters paramsA []).getD
        initialHookState.bestParams).toSignalParameters = paramsA
    ∨ (some flatCandles16 = none
        ∧ ((runOneHillClimb (some flatCandles16) defaultParameters paramsA []).getD
            initialHookState.bestParams).toSignalParameters = defaultParameters
        ∧ ((runOneHillClimb (some flatCandles16) defaultParameters paramsA []).getD
            initialHookState.bestParams).maxProfit = ⊥) :=
  claim_C2_amended (some flatCandles16) defaultParameters paramsA [] _ rfl

/-- C2 counterexample: a run on a sixteen-candle flat series (every candidate
evaluates to 0 trades, failing the `minTradeCount` filter) still ends with
best profit 0, not the sentinel `-Infinity`: the initial sample of the climb
bypassed the filter and beat the sentinel. -/
theorem claim_C2_counterexample :
    (runHillClimbForFiveSeconds (some flatCandles16) initialHookState
        [⟨paramsA, [], 1000⟩]).map (fun o => o.finalEmission.maxProfit)
      = some ((0 : ℚ) : WithBot ℚ)
    ∧ (generateTradingSignals flatCandles16 paramsA).map (fun r => r.numTrades)
      = some 0 := by
  have hbot : (⊥ : WithBot ℚ) < (0 : WithBot ℚ) := by decide
  constructor <;>
    norm_num [runHillClimbForFiveSeconds, runIteration, runOneHillClimb, climbStep,
      generateTradingSignals, calculateRSI, rsiStep, calculateChaikinVolatility, emaStep,
      scanStep, flatCandles16, mkCandle, paramsA, initialHookState, defaultParameters,
      List.range', List.foldlM_cons, List.foldlM_nil, WithBot.bot_lt_coe, hbot]

/-! ## Claim C3: persistence of the best across runs -/

theorem runIteration_mono (ohlcvData : Option (List Candle)) (tp : SignalParameters)
    (acc acc1 : OptimizationResult × ℤ × List (ℤ × OptimizationResult))
    (it : ClimbIteration) (h : runIteration ohlcvData tp acc it = some acc1) :
    acc.1.maxProfit ≤ acc1.1.maxProfit := by
  unfold runIteration at h
  cases hclimb : runOneHillClimb ohlcvData tp it.initParams it.choices with
  | none =>
    rw [hclimb] at h
    exact absurd h (by simp)
  | some attempt =>
    rw [hclimb] at h
    simp only [Option.some.injEq] at h
    subst h
    split
    · next himpr =>
      split
      · exact le_of_lt himpr
      · exact le_of_lt himpr
    · exact le_refl _

theorem run_foldlM_mono (ohlcvData : Option (List Candle)) (tp : SignalParameters)
    (iters : List ClimbIteration) :
    ∀ acc accF, iters.foldlM (runIteration ohlcvData tp) acc = some accF →
      acc.1.maxProfit ≤ accF.1.maxProfit := by
  induction iters with
  | nil =>
    intro acc accF h
    simp only [List.foldlM_nil] at h
    rw [← Option.some.inj h]
  | cons it rest ih =>
    intro acc accF h
    rw [List.foldlM_cons] at h
    cases hstep : runIteration ohlcvData tp acc it with
    | none =>
      rw [hstep] at h
      exact absurd h (by simp)
    | some acc1 =>
      rw [hstep] at h
      rw [show ((some acc1 : Option (OptimizationResult × ℤ × List (ℤ × OptimizationResult)))
          >>= fun x => List.foldlM (runIteration ohlcvData tp) x rest)
          = List.foldlM (runIteration ohlcvData tp) acc1 rest from rfl] at h
      exact le_trans (runIteration_mono ohlcvData tp acc acc1 it hstep) (ih acc1 accF h)

/-- C3 amended: the best-so-far of a run is not reset to the sentinel — it starts
from the persistent `bestParams` hook state, so the finally emitted best
never has profit below the best of the incoming state, and the post-run state
stores exactly the final best (so a better best found by an earlier run
survives into the result of the next run).  The sentinel holds only in the initial
hook state and right after `resetParameters`. -/
theorem claim_C3_amended (ohlcvData : Option (List Candle)) (st : HookState)
    (iters : List ClimbIteration) (out : RunOutput)
    (h : runHillClimbForFiveSeconds ohlcvData st iters = some out) :
    st.bestParams.maxProfit ≤ out.finalEmission.maxProfit
    ∧ out.state.bestParams = out.finalEmission
    ∧ initialHookState.bestParams.maxProfit = ⊥
    ∧ (resetParameters st).bestParams.maxProfit = ⊥ := by
  unfold runHillClimbForFiveSeconds at h
  cases hfold : iters.foldlM (runIteration ohlcvData st.testParams)
      (st.bestParams, (0 : ℤ), ([] : List (ℤ × OptimizationResult))) with
  | none =>
    rw [hfold] at h
    exact absurd h (by simp)
  | some trip =>
    obtain ⟨localBest, lu, ems⟩ := trip
    rw [hfold] at h
    simp only [Option.some.injEq] at h
    subst h
    exact ⟨run_foldlM_mono ohlcvData st.testParams iters _ _ hfold, rfl, rfl, rfl⟩

/-- Witness for C3 (amended) with null data and a single iteration. -/
theorem claim_C3_witness :
    initialHookState.bestParams.maxProfit ≤
      ((runHillClimbForFiveSeconds none initialHookState
        [⟨defaultParameters, [], 300⟩]).getD dummyRunOutput).finalEmission.maxProfit
    ∧ ((runHillClimbForFiveSeconds none initialHookState
        [⟨defaultParameters, [], 300⟩]).getD dummyRunOutput).state.bestParams
      = ((runHillClimbForFiveSeconds none initialHookState
        [⟨defaultParameters, [], 300⟩]).getD dummyRunOutput).finalEmission
    ∧ initialHookState.bestParams.maxProfit = ⊥
    ∧ (resetParameters initialHookState).bestParams.maxProfit = ⊥ :=
  claim_C3_amended none initialHookState [⟨defaultParameters, [], 300⟩] _ rfl

/-- C3 counterexample: two runs differing only in the parameters their first
(and only) climb sampled, followed by an identical second run, give the
second run different results: the final emission of the second run carries
the thresholds sampled by the FIRST run (10 in one chain, 20 in the other), although
the second run itself only ever evaluated thresholds of 30.  The best-so-far
was therefore not reset at the start of the second run, and the result of a
run depends on the best candidate of an earlier run. -/
theorem claim_C3_counterexample :
    ((runHillClimbForFiveSeconds (some flatCandles16) initialHookState
        [⟨paramsA, [], 1000⟩]).bind (fun o1 =>
          runHillClimbForFiveSeconds (some flatCandles16) o1.state
            [⟨paramsC, [], 2000⟩])).map (fun o => o.finalEmission.buyRsiThreshold)
      = some 10
    ∧ ((runHillClimbForFiveSeconds (some flatCandles16) initialHookState
        [⟨paramsB, [], 1000⟩]).bind (fun o1 =>
          runHillClimbForFiveSeconds (some flatCandles16) o1.state
            [⟨paramsC, [], 2000⟩])).map (fun o => o.finalEmission.buyRsiThreshold)
      = some 20 := by
  have hbot : (⊥ : WithBot ℚ) < (0 : WithBot ℚ) := by decide
  constructor <;>
    norm_num [runHillClimbForFiveSeconds, runIteration, runOneHillClimb, climbStep,
      generateTradingSignals, calculateRSI, rsiStep, calculateChaikinVolatility, emaStep,
      scanStep, flatCandles16, mkCandle, paramsA, paramsB, paramsC, initialHookState,
      defaultParameters, List.range', List.foldlM_cons, List.foldlM_nil, hbot]

/-! ## Claim C9: progress-emission throttling -/

theorem runIteration_emitInv (ohlcvData : Option (List Candle)) (tp : SignalParameters)
    (b0 : OptimizationResult)
    (acc acc1 : OptimizationResult × ℤ × List (ℤ × OptimizationResult))
    (it : ClimbIteration) (h200 : (200 : ℤ) ≤ it.now)
    (h : runIteration ohlcvData tp acc it = some acc1) (hinv : EmitInv b0 acc) :
    EmitInv b0 acc1 := by
  obtain ⟨hchain, hlast, hempty⟩ := hinv
  unfold runIteration at h
  cases hclimb : runOneHillClimb ohlcvData tp it.initParams it.choices with
  | none =>
    rw [hclimb] at h
    exact absurd h (by simp)
  | some attempt =>
    rw [hclimb] at h
    simp only [Option.some.injEq] at h
    subst h
    split
    · split
      · next hthrottle =>
        refine ⟨?_, ?_, ?_⟩
        · rw [List.chain'_append]
          refine ⟨hchain, List.chain'_singleton _, ?_⟩
          intro x hx y hy
          simp only [List.head?_cons, Option.mem_def, Option.some.injEq] at hy
          subst hy
          have hx1 := hlast x (Option.mem_def.mp hx)
          show x.1 + 200 ≤ it.now
          omega
        · intro e he
          rw [List.getLast?_concat] at he
          rw [← Option.some.inj he]
        · intro hemp
          exact absurd hemp (by simp)
      · next hthrottle =>
        refine ⟨hchain, hlast, ?_⟩
        intro hemp
        have h0 := hempty hemp
        exact absurd h200 (by omega)
    · exact ⟨hchain, hlast, hempty⟩

theorem run_foldlM_emitInv (ohlcvData : Option (List Candle)) (tp : SignalParameters)
    (b0 : OptimizationResult) (iters : List ClimbIteration) :
    ∀ acc accF, (∀ it ∈ iters, (200 : ℤ) ≤ it.now) →
      iters.foldlM (runIteration ohlcvData tp) acc = some accF →
      EmitInv b0 acc → EmitInv b0 accF := by
  induction iters with
  | nil =>
    intro acc accF _ h hinv
    simp only [List.foldlM_nil] at h
    rw [← Option.some.inj h]
    exact hinv
  | cons it rest ih =>
    intro acc accF h200 h hinv
    rw [List.foldlM_cons] at h
    cases hstep : runIteration ohlcvData tp acc it with
    | none =>
      rw [hstep] at h
      exact absurd h (by simp)
    | some acc1 =>
      rw [hstep] at h
      rw [show ((some acc1 : Option (OptimizationResult × ℤ × List (ℤ × OptimizationResult)))
          >>= fun x => List.foldlM (runIteration ohlcvData tp) x rest)
          = List.foldlM (runIteration ohlcvData tp) acc1 rest from rfl] at h
      exact ih acc1 accF (fun x hx => h200 x (List.mem_cons_of_mem _ hx)) h
        (runIteration_emitInv ohlcvData tp b0 acc acc1 it
          (h200 it (List.mem_cons_self _ _)) hstep hinv)

/-- C9: in a completed run whose `Date.now()` readings are at least 200
(which every real epoch-millisecond clock satisfies), consecutive throttled
progress emissions are separated by at least 200ms of wall-clock time; if no
throttled emission happened then no improvement happened, i.e. the very first
improvement is always emitted regardless of the throttle window; and the
final best is emitted unconditionally (it is both the final
`onParametersUpdate` payload and the stored `bestParams`). -/
theorem claim_C9 (ohlcvData : Option (List Candle)) (st : HookState)
    (iters : List ClimbIteration) (out : RunOutput)
    (h : runHillClimbForFiveSeconds ohlcvData st iters = some out)
    (h200 : ∀ it ∈ iters, (200 : ℤ) ≤ it.now) :
    List.Chain' (fun a b => a.1 + 200 ≤ b.1) out.emissions
    ∧ (out.emissions = [] → out.finalEmission = st.bestParams)
    ∧ out.state.bestParams = out.finalEmission := by
  unfold runHillClimbForFiveSeconds at h
  cases hfold : iters.foldlM (runIteration ohlcvData st.testParams)
      (st.bestParams, (0 : ℤ), ([] : List (ℤ × OptimizationResult))) with
  | none =>
    rw [hfold] at h
    exact absurd h (by simp)
  | some trip =>
    obtain ⟨localBest, lu, ems⟩ := trip
    rw [hfold] at h
    simp only [Option.some.injEq] at h
    subst h
    have hinv := run_foldlM_emitInv ohlcvData st.testParams st.bestParams iters _ _
      h200 hfold ⟨List.chain'_nil, fun e he => absurd he (by simp), fun _ => ⟨rfl, rfl⟩⟩
    obtain ⟨hchain, _, hempty⟩ := hinv
    exact ⟨hchain, fun hemp => (hempty hemp).2, rfl⟩

/-- Witness for C9 with null data and a single iteration at time 300. -/
theorem claim_C9_witness :
    List.Chain' (fun a b => a.1 + 200 ≤ b.1)
      ((runHillClimbForFiveSeconds none initialHookState
        [⟨defaultParameters, [], 300⟩]).getD dummyRunOutput).emissions
    ∧ (((runHillClimbForFiveSeconds none initialHookState
        [⟨defaultParameters, [], 300⟩]).getD dummyRunOutput).emissions = [] →
        ((runHillClimbForFiveSeconds none initialHookState
          [⟨defaultParameters, [], 300⟩]).getD dummyRunOutput).finalEmission
          = initialHookState.bestParams)
    ∧ ((runHillClimbForFiveSeconds none initialHookState
        [⟨defaultParameters, [], 300⟩]).getD dummyRunOutput).state.bestParams
      = ((runHillClimbForFiveSeconds none initialHookState
        [⟨defaultParameters, [], 300⟩]).getD dummyRunOutput).finalEmission :=
  claim_C9 none initialHookState [⟨defaultParameters, [], 300⟩] _ rfl
    (by intro it hit; rw [List.mem_singleton.mp hit]; decide)
